import Mathlib

/-!
Formal model of the ABAssist XML Template Generator / Transaction Reversal
portal (`src/app.py`, `src/lsv.py`).  The template pipeline
(`XMLGeneratorService.extract_jinja_variables`,
`XMLGeneratorService.render_xml_template`) is embedded at character level:
the extraction regex `\{\{\s*([a-zA-Z_][a-zA-Z0-9_]*)\s*\}\}` becomes an
explicit scanner, and the `jinja2.Template(...).render(**variables)` call is
modelled by the same scanner restricted to the fragment of Jinja2 that these
XML templates use (plain text plus `{{ identifier }}` print statements), with
jinja2's documented default behaviour: `\r\n` and `\r` are normalised to
`\n` and the trailing newline of the source is stripped
(`keep_trailing_newline=False`), a missing name renders as the empty string (default
`Undefined`), values are inserted verbatim (`autoescape=False`), the names
`true/True/false/False/none/None` are parsed as constants, and a construct
opened by `{{`, `{%` or `{#` that is not a plain identifier placeholder is
modelled as a `TemplateSyntaxError` (the service catches every exception and
returns `None`, modelled as `none`).
-/

/-- Whitespace class of Python's regex `\s` on `str` (also used by the jinja2
lexer's own regexes): the characters for which CPython's
`Py_UNICODE_ISSPACE` holds, i.e. `0x09`-`0x0D`, `0x1C`-`0x1F`, space, and
the Unicode whitespace characters. -/
def pySpace (c : Char) : Bool :=
  c = ' ' || ('\x09' ≤ c && c ≤ '\x0d') || ('\x1c' ≤ c && c ≤ '\x1f') ||
  c = '\x85' || c = '\xa0' || c = '\u1680' || ('\u2000' ≤ c && c ≤ '\u200A') ||
  c = '\u2028' || c = '\u2029' || c = '\u202F' || c = '\u205F' || c = '\u3000'

/-- First character of an identifier, per the source pattern `[a-zA-Z_]`. -/
def isIdentStart (c : Char) : Bool :=
  ('a' ≤ c && c ≤ 'z') || ('A' ≤ c && c ≤ 'Z') || c = '_'

/-- Continuation character of an identifier, per `[a-zA-Z0-9_]`. -/
def isIdentCont (c : Char) : Bool :=
  isIdentStart c || ('0' ≤ c && c ≤ '9')

/-- Match the part of the placeholder pattern after the two opening braces:
`\s*([a-zA-Z_][a-zA-Z0-9_]*)\s*\}\}`.  Returns the captured identifier and
the characters after the match. -/
def matchAfterBraces (l : List Char) : Option (String × List Char) :=
  match l.dropWhile pySpace with
  | [] => none
  | c :: cs =>
    if isIdentStart c then
      match (cs.dropWhile isIdentCont).dropWhile pySpace with
      | '}' :: '}' :: rest => some (String.mk (c :: cs.takeWhile isIdentCont), rest)
      | _ => none
    else none

/-- Match the full placeholder pattern `\{\{\s*([a-zA-Z_][a-zA-Z0-9_]*)\s*\}\}`
at the start of the character list. -/
def matchPlaceholder (cs : List Char) : Option (String × List Char) :=
  match cs with
  | c1 :: c2 :: l => if c1 = '{' then (if c2 = '{' then matchAfterBraces l else none) else none
  | _ => none

/-- Token of a template text: a plain character, a well-formed placeholder
carrying its identifier, or a character that opens a Jinja2 delimiter (`{{`,
`{%` or `{#`) without forming a well-formed identifier placeholder. -/
inductive Tok where
  | text (c : Char)
  | var (n : String)
  | err (c : Char)
deriving DecidableEq, Repr

/-- Does `c` followed by `cs'` open a Jinja2 delimiter (`{{`, `{%`, `{#`)? -/
def delimiterStart (c : Char) (cs' : List Char) : Bool :=
  c = '{' && (cs'.head? = some '{' || cs'.head? = some '%' || cs'.head? = some '#')

/-- Token produced for a character at which no placeholder match starts. -/
def tokHead (c : Char) (cs' : List Char) : Tok :=
  if delimiterStart c cs' then .err c else .text c

/-- Fuelled left-to-right scan of a template, producing one `Tok.var` per
non-overlapping placeholder match (the semantics of `re.findall` with the
source pattern) and one token per remaining character. -/
def tokenizeF : Nat → List Char → List Tok
  | 0, _ => []
  | fuel + 1, cs =>
    match matchPlaceholder cs with
    | some (n, rest) => .var n :: tokenizeF fuel rest
    | none =>
      match cs with
      | [] => []
      | c :: cs' => tokHead c cs' :: tokenizeF fuel cs'

/-- Tokenisation of a template text. -/
def tokenize (cs : List Char) : List Tok := tokenizeF cs.length cs

/-- Variables collected by the scan, in match order with duplicates: the model
of `re.findall(pattern, xml_content)` (group 1 of each match). -/
def findVars (cs : List Char) : List String :=
  (tokenize cs).filterMap fun t => match t with | .var n => some n | _ => none

/-- Model of `XMLGeneratorService.extract_jinja_variables`:
`sorted(list(set(re.findall(pattern, xml_content))))`. -/
def extract_jinja_variables (xml_content : String) : List String :=
  List.insertionSort (· ≤ ·) (findVars xml_content.data).dedup

/-- A well-formed `{{ identifier }}` placeholder with name `n` occurs in `cs`:
at some offset the placeholder pattern matches and captures `n`. -/
def occursPlaceholder (cs : List Char) (n : String) : Prop :=
  ∃ i rest, matchPlaceholder (cs.drop i) = some (n, rest)

/-- Classification of a single-identifier Jinja2 print statement.  In the
default environment the names `true/True/false/False` and `none/None` are
parsed as constants (rendered `True`, `False`, `None` by `str`), `not` is a
unary operator so `{{ not }}` is a `TemplateSyntaxError`, and every other
identifier is an ordinary name resolved in the render context. -/
inductive NameKind where
  | const (s : String)
  | errKeyword
  | plainName
deriving DecidableEq

def nameKind (n : String) : NameKind :=
  if n = "true" ∨ n = "True" then .const "True"
  else if n = "false" ∨ n = "False" then .const "False"
  else if n = "none" ∨ n = "None" then .const "None"
  else if n = "not" then .errKeyword
  else .plainName

/-- Rendering of one token by the modelled engine: plain text is copied, a
delimiter that is not a well-formed identifier placeholder raises (`none`),
and a placeholder prints its constant or the context value, where a missing
name prints as the empty string (jinja2's default `Undefined`). -/
def renderToken (m : List (String × String)) : Tok → Option (List Char)
  | .text c => some [c]
  | .err _ => none
  | .var n =>
    match nameKind n with
    | .const s => some s.data
    | .errKeyword => none
    | .plainName => some ((List.lookup n m).getD "").data

/-- Rendering pass of the modelled jinja2 engine over the newline-normalised
source: `none` models a raised `TemplateSyntaxError`. -/
def renderTemplate (m : List (String × String)) (cs : List Char) : Option (List Char) :=
  ((tokenize cs).mapM (renderToken m)).map List.flatten

/-- Newline normalisation performed by the jinja2 3.x lexer: the source is
split on `newline_re = (\r\n|\r|\n)` and rejoined with `\n`, so `\r\n` and a
lone `\r` become `\n` and every other character is left untouched. -/
def normalizeBreaks : List Char → List Char
  | [] => []
  | '\x0d' :: '\x0a' :: cs => '\x0a' :: normalizeBreaks cs
  | '\x0d' :: cs => '\x0a' :: normalizeBreaks cs
  | c :: cs => c :: normalizeBreaks cs

/-- With `keep_trailing_newline=False` (the default) the jinja2 lexer drops
one final line break of the source (after normalisation it is a `\n`). -/
def stripTrailingNewline (cs : List Char) : List Char :=
  if cs.getLast? = some '\x0a' then cs.dropLast else cs

/-- Source preprocessing performed by the jinja2 lexer before tokenising. -/
def preprocess (cs : List Char) : List Char := stripTrailingNewline (normalizeBreaks cs)

/-- Model of `XMLGeneratorService.render_xml_template`: build
`jinja2.Template(template_content)` and call `.render(**variables)`; every
exception is caught and `None` (here `none`) is returned. -/
def render_xml_template (template_content : String)
    (vars : List (String × String)) : Option String :=
  (renderTemplate vars (preprocess template_content.data)).map String.mk

/-- Tokens on which the modelled engine cannot raise. -/
def plainTok : Tok → Bool
  | .text _ => true
  | .err _ => false
  | .var n => !(n = "not")

/-- Template texts whose Jinja2 constructs are exactly well-formed
`{{ identifier }}` placeholders (no stray `{{`/`{%`/`{#` delimiter, no
`{{ not }}`): on these the modelled engine cannot raise. -/
def plainTemplate (cs : List Char) : Bool := (tokenize cs).all plainTok

/-- Model of `XMLGeneratorService.get_available_templates`: the directory
state is `none` when `TEMPLATES_FOLDER` does not exist or `os.listdir`
raises (the exception is caught and logged), otherwise `some` of the listed
filenames; the result keeps the names ending in `.xml`, sorted. -/
def get_available_templates (dirListing : Option (List String)) : List String :=
  match dirListing with
  | none => []
  | some files => List.insertionSort (· ≤ ·) (files.filter fun f => f.endsWith ".xml")

/-- One scalar cell of a result row of the external Oracle store.  A
date/datetime value (the only driver values with an `isoformat` attribute)
carries the string its `isoformat()` returns; `null` models SQL NULL. -/
inductive CellValue where
  | dateTime (iso : String)
  | text (s : String)
  | num (n : Int)
  | null
deriving DecidableEq, Repr

/-- Row-cell conversion in `TransactionReversalService.search_transactions`:
`if hasattr(value, 'isoformat'): transaction[key] = value.isoformat()`.
There is no `None` branch in this loop. -/
def convertCellSearch : CellValue → CellValue
  | .dateTime iso => .text iso
  | v => v

/-- Row-cell conversion in `TransactionReversalService.get_transaction_details`:
`if hasattr(value, 'isoformat'): ... elif value is None: transaction[key] = ''`. -/
def convertCellDetails : CellValue → CellValue
  | .dateTime iso => .text iso
  | .null => .text ""
  | v => v

/-- Mapping of one fetched row into the transaction dict by
`search_transactions`. -/
def search_row_to_transaction (row : List (String × CellValue)) :
    List (String × CellValue) :=
  row.map fun kv => (kv.1, convertCellSearch kv.2)

/-- Mapping of the fetched row into the transaction dict by
`get_transaction_details`. -/
def details_row_to_transaction (row : List (String × CellValue)) :
    List (String × CellValue) :=
  row.map fun kv => (kv.1, convertCellDetails kv.2)

/-- The five criteria fields of the search form; `none` models an absent form
field (`request.form.get` returning `None`). -/
structure SearchCriteria where
  txn_id : Option String
  account_number : Option String
  reference_number : Option String
  date_from : Option String
  date_to : Option String

/-- Python truthiness of an optional form value: `None` and `''` are falsy. -/
def truthy : Option String → Bool
  | none => false
  | some s => !(s = "")

/-- The `AND ...` condition fragments built by
`TransactionReversalService.search_transactions` for the criteria that are
present and truthy, in source order. -/
def searchConditions (c : SearchCriteria) : List String :=
  (if truthy c.txn_id then ["AND txn_id = :txn_id"] else []) ++
  (if truthy c.account_number then ["AND account_number = :account_number"] else []) ++
  (if truthy c.reference_number then ["AND reference_number = :reference_number"] else []) ++
  (if truthy c.date_from then ["AND txn_date >= TO_DATE(:date_from, 'YYYY-MM-DD')"] else []) ++
  (if truthy c.date_to then ["AND txn_date <= TO_DATE(:date_to, 'YYYY-MM-DD')"] else [])

/-- Model of the `search_transactions_endpoint` route: empty criteria are
removed (`{k: v for k, v in ... if v}`); if none remain the request is
rejected with a flash message before any database call (`none`), otherwise
the query is executed with the conjunction of the built conditions
(`some conds`). -/
def search_transactions_endpoint (c : SearchCriteria) : Option (List String) :=
  if truthy c.txn_id || truthy c.account_number || truthy c.reference_number ||
      truthy c.date_from || truthy c.date_to then
    some (searchConditions c)
  else
    none

/-- The fields of the transaction dict consulted by `initiate_reversal`
(after `get_transaction_details` null-to-empty conversion both are strings). -/
structure TransactionDetails where
  reversal_status : String
  txn_status : String
deriving DecidableEq, Repr

/-- Outcome of the `initiate_reversal` route.  Every constructor except
`dispatched` models a flash message plus redirect issued without calling
`initiate_reversal_via_jconsole`; `dispatched` carries the `full_reason`
passed to the dispatcher. -/
inductive ReversalResult where
  | reasonRequired
  | notFound
  | alreadyReversed
  | notCompleted
  | dispatched (full_reason : String)
deriving DecidableEq, Repr

/-- Model of the `initiate_reversal` route: `reversal_reason` is the form
value (`""` models both an absent field and an empty submission, which
`if not reversal_reason` treats alike), `txn` is the result of
`get_transaction_details` (`none` = not found). -/
def initiate_reversal (reversal_reason : String) (reversal_notes : String)
    (txn : Option TransactionDetails) : ReversalResult :=
  if reversal_reason = "" then .reasonRequired
  else
    match txn with
    | none => .notFound
    | some t =>
      if t.reversal_status = "COMPLETED" then .alreadyReversed
      else if ¬(t.txn_status = "COMPLETED") then .notCompleted
      else .dispatched
        (if reversal_notes = "" then reversal_reason
         else reversal_reason ++ " - " ++ reversal_notes)

/-- A row of the `logs` table written by `XMLGeneratorService.log_generation`. -/
structure LogRecord where
  template_name : String
  submitted_data : List (String × String)
  generated_xml : String
deriving DecidableEq, Repr

/-- Model of `XMLGeneratorService.log_generation`: `writeOk = false` models
the sqlite call raising, in which case the exception is caught and logged and
nothing is persisted (`none`); the caller never sees a failure. -/
def log_generation (writeOk : Bool) (template_name : String)
    (form : List (String × String)) (xml : String) : Option LogRecord :=
  if writeOk then some ⟨template_name, form, xml⟩ else none

/-- Outcome of the `generate_xml` route as seen by the user: a flash plus
redirect (`templateMissing` to the home page, `renderFailed` back to the
form) or the result page showing the generated XML. -/
inductive GenerateOutcome where
  | templateMissing
  | renderFailed
  | success (generated_xml : String)
deriving DecidableEq, Repr

/-- Model of the `generate_xml` route: read the template (`none` = unreadable,
and `if not template_content` also treats the empty file as missing), render
it with the form data, treat a falsy result (`None` or `""`) as a failure,
otherwise log (best effort) and show the result.  Returns the user-visible
outcome and the log record that was persisted, if any. -/
def generate_xml (template_content : Option String) (form : List (String × String))
    (logWriteOk : Bool) (template_name : String) :
    GenerateOutcome × Option LogRecord :=
  match template_content with
  | none => (.templateMissing, none)
  | some content =>
    if content = "" then (.templateMissing, none)
    else
      match render_xml_template content form with
      | none => (.renderFailed, none)
      | some xml =>
        if xml = "" then (.renderFailed, none)
        else (.success xml, log_generation logWriteOk template_name form xml)

theorem pySpace_ne_lbrace {c : Char} (h : pySpace c = true) : c ≠ '{' := by
  intro he; subst he; exact absurd h (by decide)

theorem isIdentStart_ne_lbrace {c : Char} (h : isIdentStart c = true) : c ≠ '{' := by
  intro he; subst he; exact absurd h (by decide)

theorem isIdentCont_ne_lbrace {c : Char} (h : isIdentCont c = true) : c ≠ '{' := by
  intro he; subst he; exact absurd h (by decide)

theorem matchAfterBraces_some {l : List Char} {n : String} {rest : List Char}
    (h : matchAfterBraces l = some (n, rest)) :
    ∃ body, l = body ++ rest ∧ body ≠ [] ∧ ∀ d ∈ body, d ≠ '{' := by
  unfold matchAfterBraces at h
  split at h
  · exact absurd h (by simp)
  · rename_i c cs hdw
    split at h
    · rename_i hstart
      split at h
      · rename_i rest0 hdw2
        injection h with h1
        injection h1 with hn hrest
        refine ⟨l.takeWhile pySpace ++ c :: (cs.takeWhile isIdentCont ++
          ((cs.dropWhile isIdentCont).takeWhile pySpace ++ ['}', '}'])), ?_, ?_, ?_⟩
        · have e1 : l = l.takeWhile pySpace ++ l.dropWhile pySpace :=
            (List.takeWhile_append_dropWhile (p := pySpace) (l := l)).symm
          have e2 : cs = cs.takeWhile isIdentCont ++ cs.dropWhile isIdentCont :=
            (List.takeWhile_append_dropWhile (p := isIdentCont) (l := cs)).symm
          have e3 : cs.dropWhile isIdentCont =
              (cs.dropWhile isIdentCont).takeWhile pySpace ++ ('}' :: '}' :: rest0) := by
            conv_lhs => rw [← List.takeWhile_append_dropWhile (p := pySpace)
              (l := cs.dropWhile isIdentCont)]
            rw [hdw2]
          rw [← hrest]
          calc l = l.takeWhile pySpace ++ (c :: cs) := by rw [← hdw]; exact e1
            _ = _ := by
              rw [e2]
              conv_lhs => rw [e3]
              simp
        · simp
        · intro d hd
          simp only [List.mem_append, List.mem_cons] at hd
          rcases hd with h1 | h2 | h3 | h4 | h5
          · exact pySpace_ne_lbrace (List.mem_takeWhile_imp h1)
          · subst h2; exact isIdentStart_ne_lbrace hstart
          · exact isIdentCont_ne_lbrace (List.mem_takeWhile_imp h3)
          · exact pySpace_ne_lbrace (List.mem_takeWhile_imp h4)
          · simp at h5; subst h5; decide
      · exact absurd h (by simp)
    · exact absurd h (by simp)

/-- Structure of a successful placeholder match: the input splits into the
matched region (which starts with `{{` and contains no further `{` after the
opening pair) followed by the remainder. -/
theorem matchPlaceholder_some {cs : List Char} {n : String} {rest : List Char}
    (h : matchPlaceholder cs = some (n, rest)) :
    ∃ body, cs = '{' :: '{' :: (body ++ rest) ∧ body ≠ [] ∧ ∀ d ∈ body, d ≠ '{' := by
  unfold matchPlaceholder at h
  split at h
  · rename_i c1 c2 l
    split at h
    · split at h
      · rename_i h1 h2
        subst h1; subst h2
        obtain ⟨body, hb1, hb2, hb3⟩ := matchAfterBraces_some h
        exact ⟨body, by rw [hb1], hb2, hb3⟩
      · exact absurd h (by simp)
    · exact absurd h (by simp)
  · exact absurd h (by simp)

theorem matchPlaceholder_length {cs : List Char} {n : String} {rest : List Char}
    (h : matchPlaceholder cs = some (n, rest)) : rest.length < cs.length := by
  obtain ⟨body, he, hne, -⟩ := matchPlaceholder_some h
  subst he
  simp only [List.length_cons, List.length_append]
  have : 0 < body.length := List.length_pos.mpr hne
  omega

theorem matchPlaceholder_nil : matchPlaceholder [] = none := rfl

theorem matchPlaceholder_head {c : Char} {l : List Char} (h : c ≠ '{') :
    matchPlaceholder (c :: l) = none := by
  cases l with
  | nil => rfl
  | cons c2 l' => simp [matchPlaceholder, h]

theorem matchPlaceholder_second {c : Char} {l : List Char} (h : c ≠ '{') :
    matchPlaceholder ('{' :: c :: l) = none := by
  simp [matchPlaceholder, h]

theorem tokenizeF_fuel : ∀ (f1 f2 : Nat) (cs : List Char),
    cs.length ≤ f1 → cs.length ≤ f2 → tokenizeF f1 cs = tokenizeF f2 cs := by
  intro f1
  induction f1 with
  | zero =>
    intro f2 cs h1 _
    have : cs = [] := List.length_eq_zero.mp (Nat.le_zero.mp h1)
    subst this
    cases f2 with
    | zero => rfl
    | succ f2' => simp [tokenizeF, matchPlaceholder_nil]
  | succ f1' ih =>
    intro f2 cs h1 h2
    cases f2 with
    | zero =>
      have : cs = [] := List.length_eq_zero.mp (Nat.le_zero.mp h2)
      subst this
      simp [tokenizeF, matchPlaceholder_nil]
    | succ f2' =>
      simp only [tokenizeF]
      cases hm : matchPlaceholder cs with
      | some p =>
        obtain ⟨n, rest⟩ := p
        have hlen := matchPlaceholder_length hm
        simp only
        rw [ih f2' rest (by omega) (by omega)]
      | none =>
        cases cs with
        | nil => rfl
        | cons c cs' =>
          simp only [List.length_cons] at h1 h2
          simp only
          rw [ih f2' cs' (by omega) (by omega)]

theorem tokenize_nil : tokenize [] = [] := rfl

theorem tokenize_match {cs : List Char} {n : String} {rest : List Char}
    (hm : matchPlaceholder cs = some (n, rest)) :
    tokenize cs = .var n :: tokenize rest := by
  have hlen := matchPlaceholder_length hm
  cases hcs : cs with
  | nil => rw [hcs] at hm; exact absurd hm (by simp [matchPlaceholder_nil])
  | cons c cs' =>
    rw [← hcs]
    unfold tokenize
    have h1 : cs.length = cs'.length + 1 := by rw [hcs]; simp
    rw [h1]
    simp only [tokenizeF, hm]
    rw [tokenizeF_fuel cs'.length rest.length rest (by omega) (by omega)]

theorem tokenize_cons {c : Char} {cs' : List Char}
    (hm : matchPlaceholder (c :: cs') = none) :
    tokenize (c :: cs') = tokHead c cs' :: tokenize cs' := by
  unfold tokenize
  simp only [List.length_cons, tokenizeF, hm]

theorem matchPlaceholder_drop_body {body : List Char} (hb : ∀ d ∈ body, d ≠ '{') :
    ∀ (j : Nat) (tail : List Char), j < body.length →
      matchPlaceholder (body.drop j ++ tail) = none := by
  induction body with
  | nil => intro j tail hj; simp at hj
  | cons b body' ih =>
    intro j tail hj
    cases j with
    | zero =>
      simp only [List.drop_zero, List.cons_append]
      exact matchPlaceholder_head (hb b (by simp))
    | succ j' =>
      simp only [List.drop_succ_cons]
      refine ih (fun d hd => hb d (by simp [hd])) j' tail ?_
      simp only [List.length_cons] at hj
      omega

theorem var_mem_tokenizeF {n : String} :
    ∀ (f : Nat) (cs : List Char) (i : Nat) (rest : List Char),
    cs.length ≤ f → matchPlaceholder (cs.drop i) = some (n, rest) →
    Tok.var n ∈ tokenizeF f cs := by
  intro f
  induction f with
  | zero =>
    intro cs i rest h1 hm
    have : cs = [] := List.length_eq_zero.mp (Nat.le_zero.mp h1)
    subst this
    rw [List.drop_nil] at hm
    exact absurd hm (by simp [matchPlaceholder_nil])
  | succ f' ih =>
    intro cs i rest hlen hm
    cases hc : matchPlaceholder cs with
    | some p =>
      obtain ⟨m, r⟩ := p
      obtain ⟨body, he, hne, hb⟩ := matchPlaceholder_some hc
      simp only [tokenizeF, hc]
      rcases Nat.lt_or_ge i (2 + body.length) with hi | hi
      · rcases Nat.lt_or_ge i 2 with hi2 | hi2
        · interval_cases i
          · rw [List.drop_zero, hc] at hm
            injection hm with hm1
            injection hm1 with hm2 hm3
            rw [hm2]
            exact List.mem_cons_self _ _
          · obtain ⟨b, body₂, rfl⟩ : ∃ b body₂, body = b :: body₂ := by
              cases body with
              | nil => exact absurd rfl hne
              | cons b body₂ => exact ⟨b, body₂, rfl⟩
            rw [he] at hm
            simp only [List.drop_succ_cons, List.drop_zero, List.cons_append] at hm
            rw [matchPlaceholder_second (hb b (by simp))] at hm
            exact absurd hm (by simp)
        · obtain ⟨j, rfl⟩ : ∃ j, i = 2 + j := ⟨i - 2, by omega⟩
          have hj : j < body.length := by omega
          rw [he] at hm
          simp only [List.drop_succ_cons, Nat.add_comm 2 j] at hm
          rw [List.drop_append_eq_append_drop, Nat.sub_eq_zero_of_le (le_of_lt hj),
            List.drop_zero] at hm
          rw [matchPlaceholder_drop_body hb j r hj] at hm
          exact absurd hm (by simp)
      · obtain ⟨k, rfl⟩ : ∃ k, i = 2 + body.length + k := ⟨i - (2 + body.length), by omega⟩
        have hr : r.length ≤ f' := by
          have := matchPlaceholder_length hc
          omega
        refine List.mem_cons_of_mem _ (ih r k rest hr ?_)
        rw [he] at hm
        have hdrop : List.drop (2 + body.length + k) ('{' :: '{' :: (body ++ r)) = r.drop k := by
          have h1 : 2 + body.length + k = (2 + body.length) + k := rfl
          rw [show ('{' :: '{' :: (body ++ r)) = ('{' :: '{' :: body) ++ r by simp,
            List.drop_append_eq_append_drop]
          have h2 : ('{' :: '{' :: body).length = 2 + body.length := by simp; omega
          rw [h2]
          rw [List.drop_eq_nil_of_le (by omega), List.nil_append]
          congr 1
          omega
        rw [hdrop] at hm
        exact hm
    | none =>
      cases cs with
      | nil =>
        rw [List.drop_nil] at hm
        exact absurd hm (by simp [matchPlaceholder_nil])
      | cons c cs' =>
        simp only [tokenizeF, hc]
        cases i with
        | zero =>
          rw [List.drop_zero, hc] at hm
          exact absurd hm (by simp)
        | succ j =>
          simp only [List.length_cons] at hlen
          rw [List.drop_succ_cons] at hm
          exact List.mem_cons_of_mem _ (ih cs' j rest (by omega) hm)

theorem occurs_of_var_mem_tokenizeF {n : String} :
    ∀ (f : Nat) (cs : List Char), cs.length ≤ f →
    Tok.var n ∈ tokenizeF f cs → occursPlaceholder cs n := by
  intro f
  induction f with
  | zero => intro cs _ hmem; exact absurd hmem (by simp [tokenizeF])
  | succ f' ih =>
    intro cs hlen hmem
    cases hc : matchPlaceholder cs with
    | some p =>
      obtain ⟨m, r⟩ := p
      obtain ⟨body, he, hne, hb⟩ := matchPlaceholder_some hc
      simp only [tokenizeF, hc] at hmem
      simp only [List.mem_cons] at hmem
      rcases hmem with hmem | hmem
      · injection hmem with hm2
        exact ⟨0, r, by rw [List.drop_zero, hc, hm2]⟩
      · have hr : r.length ≤ f' := by
          have := matchPlaceholder_length hc
          omega
        obtain ⟨i, rest, hmi⟩ := ih r hr hmem
        refine ⟨2 + body.length + i, rest, ?_⟩
        rw [he]
        have hdrop : List.drop (2 + body.length + i) ('{' :: '{' :: (body ++ r)) = r.drop i := by
          rw [show ('{' :: '{' :: (body ++ r)) = ('{' :: '{' :: body) ++ r by simp,
            List.drop_append_eq_append_drop]
          have h2 : ('{' :: '{' :: body).length = 2 + body.length := by simp; omega
          rw [h2, List.drop_eq_nil_of_le (by omega), List.nil_append]
          congr 1
          omega
        rw [hdrop]
        exact hmi
    | none =>
      cases cs with
      | nil => exact absurd hmem (by simp [tokenizeF, matchPlaceholder_nil])
      | cons c cs' =>
        simp only [tokenizeF, hc] at hmem
        simp only [List.mem_cons] at hmem
        rcases hmem with hmem | hmem
        · have : tokHead c cs' ≠ Tok.var n := by
            unfold tokHead; split <;> simp
          exact absurd hmem.symm this
        · simp only [List.length_cons] at hlen
          obtain ⟨i, rest, hmi⟩ := ih cs' (by omega) hmem
          exact ⟨i + 1, rest, by rw [List.drop_succ_cons]; exact hmi⟩

/-- The scan collects a name exactly when a well-formed placeholder with that
name occurs in the text (the regex search misses no occurrence and invents
none). -/
theorem mem_findVars_iff {cs : List Char} {n : String} :
    n ∈ findVars cs ↔ occursPlaceholder cs n := by
  constructor
  · intro h
    unfold findVars at h
    rw [List.mem_filterMap] at h
    obtain ⟨t, ht, hmap⟩ := h
    have : t = Tok.var n := by cases t <;> simp_all
    subst this
    exact occurs_of_var_mem_tokenizeF cs.length cs le_rfl ht
  · rintro ⟨i, rest, hm⟩
    unfold findVars
    rw [List.mem_filterMap]
    exact ⟨Tok.var n, var_mem_tokenizeF cs.length cs i rest le_rfl hm, rfl⟩

theorem mem_extract_iff_findVars {s : String} {n : String} :
    n ∈ extract_jinja_variables s ↔ n ∈ findVars s.data := by
  unfold extract_jinja_variables
  rw [List.mem_insertionSort, List.mem_dedup]

theorem extract_sorted (s : String) :
    (extract_jinja_variables s).Sorted (· ≤ ·) :=
  List.sorted_insertionSort _ _

theorem extract_nodup (s : String) : (extract_jinja_variables s).Nodup :=
  ((List.perm_insertionSort _ _).nodup_iff).mpr (List.nodup_dedup _)

theorem nameKind_const_cases {n : String} {s : String} (h : nameKind n = .const s) :
    s = "True" ∨ s = "False" ∨ s = "None" := by
  unfold nameKind at h
  split_ifs at h <;> simp_all

theorem renderTemplate_cons_text {m : List (String × String)} {c : Char} {cs' : List Char}
    (h : tokenize (c :: cs') = .text c :: tokenize cs') :
    renderTemplate m (c :: cs') = (renderTemplate m cs').map (fun l => c :: l) := by
  unfold renderTemplate
  rw [h, List.mapM_cons]
  cases hmm : (tokenize cs').mapM (renderToken m) with
  | none => simp [renderToken, hmm]
  | some segs => simp [renderToken, hmm]

theorem renderTemplate_varfree :
    ∀ (f : Nat) (cs : List Char) (m : List (String × String)), cs.length ≤ f →
    plainTemplate cs = true → findVars cs = [] → renderTemplate m cs = some cs := by
  intro f
  induction f with
  | zero =>
    intro cs m h1 _ _
    have : cs = [] := List.length_eq_zero.mp (Nat.le_zero.mp h1)
    subst this
    rfl
  | succ f' ih =>
    intro cs m hlen hp hv
    cases hc : matchPlaceholder cs with
    | some p =>
      obtain ⟨n, r⟩ := p
      have : n ∈ findVars cs := by
        unfold findVars
        rw [tokenize_match hc]
        simp
      rw [hv] at this
      exact absurd this (by simp)
    | none =>
      cases cs with
      | nil => rfl
      | cons c cs' =>
        have htok : tokenize (c :: cs') = tokHead c cs' :: tokenize cs' := tokenize_cons hc
        have hhead : tokHead c cs' = Tok.text c := by
          have hall := List.all_eq_true.mp hp (tokHead c cs') (by rw [htok]; simp)
          unfold tokHead at hall ⊢
          split at hall
          · exact absurd hall (by simp [plainTok])
          · rename_i hd
            exact if_neg hd
        rw [hhead] at htok
        have hp' : plainTemplate cs' = true := by
          unfold plainTemplate at hp ⊢
          rw [htok] at hp
          simp only [List.all_cons, Bool.and_eq_true] at hp
          exact hp.2
        have hv' : findVars cs' = [] := by
          unfold findVars at hv ⊢
          rw [htok] at hv
          simpa using hv
        simp only [List.length_cons] at hlen
        rw [renderTemplate_cons_text htok, ih cs' m (by omega) hp' hv']
        rfl

/-- C3: for every template text, `extract` is sorted ascending (lexicographic
and case-sensitive, the order of `sorted` on Python `str`), duplicate-free,
and contains exactly the identifiers that appear inside well-formed
`{{identifier}}` tokens (optional whitespace inside the braces).  Malformed
tokens such as `{{1abc}}` never match, so their identifiers are absent, and
the empty string has no occurrence at all, so it yields the empty result —
both are instances of the exactness equivalence. -/
theorem C3_extract_sorted_nodup_exact (s : String) :
    (extract_jinja_variables s).Sorted (· ≤ ·) ∧
    (extract_jinja_variables s).Nodup ∧
    (∀ n, n ∈ extract_jinja_variables s ↔ occursPlaceholder s.data n) :=
  ⟨extract_sorted s, extract_nodup s,
   fun _ => mem_extract_iff_findVars.trans mem_findVars_iff⟩

theorem C3_extract_witness :
    "a" ∈ extract_jinja_variables "{{a}}" ↔ occursPlaceholder "{{a}}".data "a" :=
  (C3_extract_sorted_nodup_exact "{{a}}").2.2 "a"

/-- C9 counterexample: the template `"a\n"` has no placeholder and the
mapping is empty, yet the output is `"a"`, not the input verbatim — jinja2
strips the trailing newline (`keep_trailing_newline=False`). -/
theorem C9_counterexample :
    extract_jinja_variables "a\n" = [] ∧
    render_xml_template "a\n" [] = some "a" ∧
    render_xml_template "a\n" [] ≠ some "a\n" := by decide

/-- C9 (amended): for a template unchanged by jinja2's newline normalisation
(no `\r`-style line breaks and no trailing newline) whose Jinja constructs
are exactly well-formed placeholders, if `extract` is empty then rendering
with the empty mapping succeeds and returns the input verbatim. -/
theorem C9_amended_no_placeholder_identity (s : String)
    (hpre : preprocess s.data = s.data) (hp : plainTemplate s.data = true)
    (hv : extract_jinja_variables s = []) :
    render_xml_template s [] = some s := by
  unfold render_xml_template
  rw [hpre]
  have hfv : findVars s.data = [] := by
    rw [List.eq_nil_iff_forall_not_mem]
    intro n hn
    have hmem := mem_extract_iff_findVars.mpr hn
    rw [hv] at hmem
    exact absurd hmem (by simp)
  rw [renderTemplate_varfree s.data.length s.data [] le_rfl hp hfv]
  have hmk : String.mk s.data = s := by cases s; rfl
  rw [Option.map_some', hmk]

theorem C9_identity_witness : render_xml_template "<ab/>" [] = some "<ab/>" :=
  C9_amended_no_placeholder_identity "<ab/>" (by decide) (by decide) (by decide)

/-- C4: `initiate_reversal` reaches the dispatcher only when the reason is
present, the transaction exists, its reversal status is not `COMPLETED` and
its transaction status is `COMPLETED`; a missing transaction yields the
not-found rejection, and a violated status precondition yields the matching
validation rejection — in every such case no dispatch happens (only the
`dispatched` result models a call to `initiate_reversal_via_jconsole`). -/
theorem C4_reversal_preconditions (reason notes : String)
    (txn : Option TransactionDetails) :
    (∀ r, initiate_reversal reason notes txn = .dispatched r →
      reason ≠ "" ∧ ∃ t, txn = some t ∧ t.reversal_status ≠ "COMPLETED" ∧
        t.txn_status = "COMPLETED") ∧
    (txn = none → reason ≠ "" → initiate_reversal reason notes txn = .notFound) ∧
    (∀ t, txn = some t → reason ≠ "" →
      (t.reversal_status = "COMPLETED" →
        initiate_reversal reason notes txn = .alreadyReversed) ∧
      (t.reversal_status ≠ "COMPLETED" → t.txn_status ≠ "COMPLETED" →
        initiate_reversal reason notes txn = .notCompleted)) := by
  refine ⟨?_, ?_, ?_⟩
  · intro r h
    by_cases h1 : reason = ""
    · simp [initiate_reversal, h1] at h
    · cases txn with
      | none => simp [initiate_reversal, h1] at h
      | some t =>
        by_cases h2 : t.reversal_status = "COMPLETED"
        · simp [initiate_reversal, h1, h2] at h
        · by_cases h3 : t.txn_status = "COMPLETED"
          · exact ⟨h1, t, rfl, h2, h3⟩
          · simp [initiate_reversal, h1, h2, h3] at h
  · intro hn h1
    subst hn
    simp [initiate_reversal, h1]
  · intro t ht h1
    subst ht
    constructor
    · intro h2
      simp [initiate_reversal, h1, h2]
    · intro h2 h3
      simp [initiate_reversal, h1, h2, h3]

theorem C4_reversal_witness :
    initiate_reversal "refund" "" (some ⟨"PENDING", "FAILED"⟩) =
      ReversalResult.notCompleted :=
  ((C4_reversal_preconditions "refund" "" (some ⟨"PENDING", "FAILED"⟩)).2.2
    ⟨"PENDING", "FAILED"⟩ rfl (by decide)).2 (by decide) (by decide)

/-- C5: the scanner returns exactly the entries of the configured directory
whose filename ends with `.xml`, sorted; a missing or unlistable directory
yields the empty collection instead of an error. -/
theorem C5_store_scanner (files : List String) :
    get_available_templates none = [] ∧
    (get_available_templates (some files)).Sorted (· ≤ ·) ∧
    (∀ f, f ∈ get_available_templates (some files) ↔
      (f ∈ files ∧ f.endsWith ".xml" = true)) := by
  refine ⟨rfl, List.sorted_insertionSort _ _, fun f => ?_⟩
  unfold get_available_templates
  rw [List.mem_insertionSort, List.mem_filter]

theorem C5_store_scanner_witness :
    "a.xml" ∈ get_available_templates (some ["b.xml", "a.xml", "c.txt"]) ↔
      ("a.xml" ∈ ["b.xml", "a.xml", "c.txt"] ∧ ("a.xml").endsWith ".xml" = true) :=
  (C5_store_scanner ["b.xml", "a.xml", "c.txt"]).2.2 "a.xml"

/-- C6 counterexample: `search_transactions` leaves a NULL scalar as NULL —
its row-mapping loop has no `None` branch — contradicting the claim that
nulls become the empty string in both the search and the by-id lookup. -/
theorem C6_counterexample :
    search_row_to_transaction [("AUTH_CODE", CellValue.null)] =
      [("AUTH_CODE", CellValue.null)] ∧
    CellValue.null ≠ CellValue.text "" := by decide

/-- C6 (amended): both operations convert every date/time value to its
`isoformat` string, but only the by-id lookup converts NULL scalars to the
empty string; the search mapping leaves NULL unchanged. -/
theorem C6_amended_row_mapping (row : List (String × CellValue)) (k : String)
    (v : CellValue) (hkv : (k, v) ∈ row) :
    ((k, convertCellDetails v) ∈ details_row_to_transaction row ∧
      (k, convertCellSearch v) ∈ search_row_to_transaction row) ∧
    (∀ iso, convertCellDetails (.dateTime iso) = .text iso ∧
      convertCellSearch (.dateTime iso) = .text iso) ∧
    (convertCellDetails .null = .text "" ∧ convertCellSearch .null = .null) := by
  refine ⟨⟨?_, ?_⟩, fun iso => ⟨rfl, rfl⟩, rfl, rfl⟩
  · unfold details_row_to_transaction
    rw [List.mem_map]
    exact ⟨(k, v), hkv, rfl⟩
  · unfold search_row_to_transaction
    rw [List.mem_map]
    exact ⟨(k, v), hkv, rfl⟩

theorem C6_row_mapping_witness :
    ((("TXN_DATE", convertCellDetails (CellValue.dateTime "2024-01-01T00:00:00")) ∈
        details_row_to_transaction [("TXN_DATE", CellValue.dateTime "2024-01-01T00:00:00")] ∧
      ("TXN_DATE", convertCellSearch (CellValue.dateTime "2024-01-01T00:00:00")) ∈
        search_row_to_transaction [("TXN_DATE", CellValue.dateTime "2024-01-01T00:00:00")]) ∧
    (∀ iso, convertCellDetails (.dateTime iso) = .text iso ∧
      convertCellSearch (.dateTime iso) = .text iso) ∧
    (convertCellDetails .null = .text "" ∧ convertCellSearch .null = .null)) :=
  C6_amended_row_mapping [("TXN_DATE", CellValue.dateTime "2024-01-01T00:00:00")]
    "TXN_DATE" (CellValue.dateTime "2024-01-01T00:00:00") (by decide)

/-- C7: a search request whose five criteria are all empty is rejected before
any external call (`none`, the flash-and-redirect path); otherwise the query
runs with the conjunction of exactly the conditions of the non-empty
criteria. -/
theorem C7_search_criteria (c : SearchCriteria) :
    (search_transactions_endpoint c = none ↔
      (truthy c.txn_id = false ∧ truthy c.account_number = false ∧
       truthy c.reference_number = false ∧ truthy c.date_from = false ∧
       truthy c.date_to = false)) ∧
    (∀ conds, search_transactions_endpoint c = some conds →
      (("AND txn_id = :txn_id" ∈ conds) ↔ truthy c.txn_id = true) ∧
      (("AND account_number = :account_number" ∈ conds) ↔
        truthy c.account_number = true) ∧
      (("AND reference_number = :reference_number" ∈ conds) ↔
        truthy c.reference_number = true) ∧
      (("AND txn_date >= TO_DATE(:date_from, 'YYYY-MM-DD')" ∈ conds) ↔
        truthy c.date_from = true) ∧
      (("AND txn_date <= TO_DATE(:date_to, 'YYYY-MM-DD')" ∈ conds) ↔
        truthy c.date_to = true)) := by
  unfold search_transactions_endpoint searchConditions
  cases h1 : truthy c.txn_id <;> cases h2 : truthy c.account_number <;>
    cases h3 : truthy c.reference_number <;> cases h4 : truthy c.date_from <;>
    cases h5 : truthy c.date_to <;> simp_all

theorem C7_search_criteria_witness :
    search_transactions_endpoint ⟨none, none, none, none, none⟩ = none ↔
      (truthy (none : Option String) = false ∧ truthy (none : Option String) = false ∧
       truthy (none : Option String) = false ∧ truthy (none : Option String) = false ∧
       truthy (none : Option String) = false) :=
  (C7_search_criteria ⟨none, none, none, none, none⟩).1

/-- C8: the user-visible outcome of the generation route does not depend on
whether the generation-log write succeeds (the write failure is swallowed
inside `log_generation`); in particular a successful non-empty render reaches
the user even when the log write fails. -/
theorem C8_log_best_effort (content : Option String) (form : List (String × String))
    (name : String) :
    (generate_xml content form true name).1 = (generate_xml content form false name).1 ∧
    (∀ c xml, content = some c → c ≠ "" → render_xml_template c form = some xml →
      xml ≠ "" → ∀ logOk, (generate_xml content form logOk name).1 = .success xml) := by
  constructor
  · cases content with
    | none => rfl
    | some c =>
      by_cases h1 : c = ""
      · simp [generate_xml, h1]
      · cases hr : render_xml_template c form with
        | none => simp [generate_xml, h1, hr]
        | some xml =>
          by_cases h2 : xml = ""
          · simp [generate_xml, h1, hr, h2]
          · simp [generate_xml, h1, hr, h2]
  · intro c xml hc h1 hr h2 logOk
    subst hc
    simp [generate_xml, h1, hr, h2]

theorem C8_log_best_effort_witness :
    (generate_xml (some "<a/>") [] false "t").1 = GenerateOutcome.success "<a/>" :=
  (C8_log_best_effort (some "<a/>") [] "t").2 "<a/>" "<a/>" rfl (by decide) (by decide)
    (by decide) false

/-- C10: a render whose result is the empty string takes exactly the same
path as a failed render (`if not generated_xml`): the user gets the error
flash and redirect and no generation record is logged. -/
theorem C10_empty_render_is_failure (content : String) (form : List (String × String))
    (logOk : Bool) (name : String) :
    (content ≠ "" → render_xml_template content form = some "" →
      generate_xml (some content) form logOk name = (.renderFailed, none)) ∧
    (content ≠ "" → render_xml_template content form = none →
      generate_xml (some content) form logOk name = (.renderFailed, none)) := by
  constructor
  · intro h1 hr
    simp [generate_xml, h1, hr]
  · intro h1 hr
    simp [generate_xml, h1, hr]

theorem C10_empty_render_witness :
    generate_xml (some "{{a}}") [("a", "")] true "t" =
      (GenerateOutcome.renderFailed, none) :=
  (C10_empty_render_is_failure "{{a}}" [("a", "")] true "t").1 (by decide) (by decide)
